import Mathlib

/-!
Verification of the persistence / context-assembly subsystem of the
Enterprise-AI-Chat-Agent repository (a client-resident RAG chat tool).

Shallow embedding of the TypeScript source:
- `src/types` (record shapes) becomes Lean structures;
- `src/utils/storage.ts` (`StorageUtils`) becomes pure functions over the
  store contents, with the IndexedDB request outcome passed explicitly as
  an `Except` value;
- `src/services/gemini.ts` (`GeminiService.generateResponse`) becomes a
  pure function of the response text and grounding metadata, with the
  inline-citation regex realised as an explicit character-level matcher;
- the orchestration handlers in `src/App.tsx` / `src/components` become
  state-transition functions.
-/

namespace ShapeChat

/-! ## Data model (from `src/types`) -/

/-- `role: 'user' | 'model'` of a `ChatMessage`. -/
inductive Role where
  | user
  | model
deriving DecidableEq

/-- `feedback?: 'thumbs_up' | 'thumbs_down'` tag on a `ChatMessage`. -/
inductive FeedbackType where
  | thumbs_up
  | thumbs_down
deriving DecidableEq

/-- `Citation { source, context }`. -/
structure Citation where
  source : String
  context : String
deriving DecidableEq

/-- `type: 'image' | 'file'` of a `ChatAttachment`. -/
inductive AttachmentKind where
  | image
  | file
deriving DecidableEq

/-- `ChatAttachment` — an ephemeral file bound to one user turn. -/
structure ChatAttachment where
  id : String
  type : AttachmentKind
  mimeType : String
  name : String
  content : String
deriving DecidableEq

/-- `ChatMessage` — one turn in a conversation.  Optional TS fields become
`Option`/default values. -/
structure ChatMessage where
  id : String
  role : Role
  text : String
  timestamp : Nat
  isError : Bool := false
  citations : List Citation := []
  attachments : List ChatAttachment := []
  feedback : Option FeedbackType := none
deriving DecidableEq

/-- `User { id, username, createdAt }`. -/
structure User where
  id : String
  username : String
  createdAt : Nat
deriving DecidableEq

/-- `SharedInsight { id, content, timestamp, sourceBaseId? }`. -/
structure SharedInsight where
  id : String
  content : String
  timestamp : Nat
  sourceBaseId : Option String := none
deriving DecidableEq

/-- `StoredFile` — one document inside a knowledge base. -/
structure StoredFile where
  id : String
  name : String
  type : String
  size : Nat
  content : String
  uploadedAt : Nat
deriving DecidableEq

/-! ## Persistent store wiring (from `src/utils/storage.ts`)

Each IndexedDB request is modelled by its outcome (`Except String ρ`:
either the request errored with some error value, or it succeeded with a
result).  A `StorageUtils` operation installs an `onsuccess` and an
`onerror` continuation on the request; the promise it returns resolves or
rejects accordingly.  `Except String α` is the promise: `.ok` = resolved,
`.error` = rejected. -/

/-- The pair of continuations a `StorageUtils` operation installs on an
IndexedDB request (`req.onsuccess` / `req.onerror`). -/
structure IdbHandlers (ρ α : Type) where
  onsuccess : ρ → Except String α
  onerror : String → Except String α

/-- Run a request: the installed continuation for the actual outcome
decides how the surrounding promise settles. -/
def runIdbRequest (h : IdbHandlers ρ α) : Except String ρ → Except String α
  | .ok r => h.onsuccess r
  | .error e => h.onerror e

/-- `StorageUtils.get`: `req.onsuccess = () => resolve(req.result || null)`,
`req.onerror = () => resolve(null)` — a read failure resolves to `null`
(here `none`), it never rejects. -/
def StorageUtils.get (outcome : Except String (Option α)) : Except String (Option α) :=
  runIdbRequest { onsuccess := fun r => .ok r, onerror := fun _ => .ok none } outcome

/-- `StorageUtils.getAll`: `req.onsuccess = () => resolve(req.result || [])`,
`req.onerror = () => resolve([])` — a read failure resolves to the empty
sequence. -/
def StorageUtils.getAll (outcome : Except String (List α)) : Except String (List α) :=
  runIdbRequest { onsuccess := fun r => .ok r, onerror := fun _ => .ok [] } outcome

/-- `StorageUtils.put`: `req.onsuccess = () => resolve()`,
`req.onerror = () => reject(req.error)` — a write failure rejects the
promise, i.e. propagates to the caller. -/
def StorageUtils.put (outcome : Except String Unit) : Except String Unit :=
  runIdbRequest { onsuccess := fun _ => .ok (), onerror := fun e => .error e } outcome

/-! ## User repository (from `src/utils/storage.ts`)

The `users` object store has `keyPath: 'username'`; its contents are
modelled as the list of stored `User` records, and `get(USERS, username)`
as the first record with that username.  The store operations themselves
are taken to succeed here (their failure wiring is the subject of the
store-level model above). -/

/-- IndexedDB `store.put(user)` on a store with `keyPath: 'username'`:
upsert keyed by username. -/
def usersPut (users : List User) (u : User) : List User :=
  users.filter (fun v => v.username ≠ u.username) ++ [u]

/-- `StorageUtils.registerUser`: reject with `"Username already taken"`
when a record with this username exists, otherwise create and store a
fresh user.  Returns the settled promise together with the resulting
store contents. -/
def registerUser (users : List User) (username : String) (newId : String)
    (now : Nat) : Except String User × List User :=
  match users.find? (fun u => u.username = username) with
  | some _ => (.error "Username already taken", users)
  | none =>
      let newUser : User := { id := newId, username := username, createdAt := now }
      (.ok newUser, usersPut users newUser)

/-- `StorageUtils.loginUser`: reject with `"User not found"` when no
record with this username exists, otherwise return the stored record. -/
def loginUser (users : List User) (username : String) : Except String User :=
  match users.find? (fun u => u.username = username) with
  | some u => .ok u
  | none => .error "User not found"

/-! ## Inline citation matcher (from `GeminiService.generateResponse`)

The regex `\[Source:\s*([^,\]]+)(?:,\s*Context:\s*"([^"]+)")?\]` is
realised as an explicit character-level matcher with the backtracking
behaviour of the JavaScript engine specialised to this pattern. -/

/-- The JavaScript whitespace class `\s` (also the character set removed
by `String.prototype.trim`). -/
def isJsSpace (c : Char) : Bool :=
  c == ' ' || c == '\t' || c == '\n' || c == '\r' ||
  c == '\x0B' || c == '\x0C' || c.toNat == 0xA0 || c.toNat == 0x1680 ||
  (0x2000 ≤ c.toNat && c.toNat ≤ 0x200A) || c.toNat == 0x2028 ||
  c.toNat == 0x2029 || c.toNat == 0x202F || c.toNat == 0x205F ||
  c.toNat == 0x3000 || c.toNat == 0xFEFF

/-- `String.prototype.trim` on a character list. -/
def jsTrim (cs : List Char) : List Char :=
  ((cs.dropWhile isJsSpace).reverse.dropWhile isJsSpace).reverse

/-- One raw regex match: the `([^,\]]+)` source capture and the optional
`([^"]+)` context capture. -/
abbrev RawMatch := List Char × Option (List Char)

/-- Consume an exact literal off the front of the input. -/
def dropLit : List Char → List Char → Option (List Char)
  | [], cs => some cs
  | _, [] => none
  | p :: ps, c :: cs => if c = p then dropLit ps cs else none

/-- Attempt to match the citation regex anchored at the head of `cs`,
returning the two captures and the input remaining after the matched
span.  Greedy backtracking specialised to this pattern: the combined
`\s*[^,\]]+` region necessarily extends to the first `,` or `]`, the
source capture starting after the maximal whitespace run (falling back to
the last whitespace character when the region is all whitespace); a
failing optional group cannot be rescued by backtracking, because the
character preceding the failure point can then be neither `,` nor `]`. -/
def matchMarkerAt (cs : List Char) : Option (RawMatch × List Char) := do
  let cs1 ← dropLit "[Source:".data cs
  let seg := cs1.takeWhile (fun c => !(c == ',' || c == ']'))
  let rest1 := cs1.drop seg.length
  let ws := seg.takeWhile isJsSpace
  let src ←
    if ws.length < seg.length then some (seg.drop ws.length)
    else if 1 ≤ seg.length then some (seg.drop (seg.length - 1))
    else none
  match rest1 with
  | ']' :: rest2 => some ((src, none), rest2)
  | ',' :: rest2 =>
      let rest3 := rest2.dropWhile isJsSpace
      let rest4 ← dropLit "Context:".data rest3
      let rest5 := rest4.dropWhile isJsSpace
      match rest5 with
      | '"' :: rest6 =>
          let ctx := rest6.takeWhile (fun c => !(c == '"'))
          let rest7 := rest6.drop ctx.length
          if ctx.length = 0 then none
          else
            match rest7 with
            | '"' :: ']' :: rest8 => some ((src, some ctx), rest8)
            | _ => none
      | _ => none
  | _ => none

/-- One pass of `regex.exec` / `String.replace(regex, '')` over the text:
the list of raw matches in first-to-last order, and the text with all
matched spans removed.  The fuel argument (instantiated with the text
length) bounds the recursion; each step consumes at least one input
character, so the fuel never runs out before the input does. -/
def scanAux : Nat → List Char → List RawMatch × List Char
  | _, [] => ([], [])
  | 0, cs => ([], cs)
  | fuel + 1, c :: rest =>
      match matchMarkerAt (c :: rest) with
      | some (m, after) =>
          let p := scanAux fuel after
          (m :: p.1, p.2)
      | none =>
          let p := scanAux fuel rest
          (p.1, c :: p.2)

/-- Scan a whole string for inline citation markers. -/
def scanText (s : String) : List RawMatch × List Char :=
  scanAux s.data.length s.data

/-- Map a raw match to a `Citation`: `match[1].trim()` and
`match[2] ? match[2].trim() : "Reference found in document"`. -/
def toCitation (m : RawMatch) : Citation :=
  { source := String.mk (jsTrim m.1),
    context :=
      match m.2 with
      | some c => String.mk (jsTrim c)
      | none => "Reference found in document" }

/-- The dedup key written into the `seen` set:
`` const key = `${source}-${context}` ``. -/
def citeKey (c : Citation) : String := c.source ++ "-" ++ c.context

/-- The `while ((match = regex.exec(text)) !== null)` loop: walk the
matches in order, pushing each citation whose key is not yet in `seen`
and recording its key. -/
def collectCitations : List Citation → List Citation → List String → List Citation
  | [], cits, _ => cits
  | c :: cs, cits, seen =>
      if seen.contains (citeKey c) then collectCitations cs cits seen
      else collectCitations cs (cits ++ [c]) (seen ++ [citeKey c])

/-- Lines 202–231 of `GeminiService.generateResponse`: starting from the
(already defaulted) raw text and the grounding citations already pushed
by the web-search branch, run inline extraction and build the returned
`{ text, citations }` pair.  `cleanedText = text.replace(regex, '').trim()`;
the cleaned text is returned when the citation list is non-empty,
otherwise the raw text. -/
def citationPass (text : String) (grounding : List Citation) :
    String × List Citation :=
  let scanned := scanText text
  let citations := collectCitations (scanned.1.map toCitation) grounding []
  let cleanedText := String.mk (jsTrim scanned.2)
  (if citations.length > 0 then cleanedText else text, citations)

/-- Line 200: `let text = response.text || "No response generated.";`
(an absent text and the empty string are both falsy). -/
def rawTextOf (responseText : Option String) : String :=
  match responseText with
  | some t => if t = "" then "No response generated." else t
  | none => "No response generated."

/-- The success path of `GeminiService.generateResponse` as a function of
the backend response's text and of the grounding citations collected from
`groundingMetadata` (the empty list when web search is off or no chunks
with a web reference are present). -/
def generateResponse (responseText : Option String)
    (grounding : List Citation) : String × List Citation :=
  citationPass (rawTextOf responseText) grounding

/-- Keep the first occurrence of each key, in first-seen order — the
specification's wording of deduplication, parameterised by the key. -/
def dedupByKey {κ : Type} [DecidableEq κ] (key : Citation → κ) :
    List Citation → List Citation
  | [] => []
  | c :: cs => c :: dedupByKey key (cs.filter (fun d => key d ≠ key c))
termination_by l => l.length
decreasing_by
  simp only [List.length_cons]
  exact Nat.lt_succ_of_le (List.length_filter_le _ _)

/-- `String.prototype.trim` on whole strings. -/
def jsTrimS (s : String) : String := String.mk (jsTrim s.data)

/-- `text.startsWith(pre)` — `text` begins with `pre`. -/
def textBegins (text pre : String) : Bool :=
  text.data.take pre.data.length == pre.data

/-! ## Context assembler (from `GeminiService.generateResponse`, lines 100–114) -/

/-- The `insightText` template variable: empty when there are no shared
insights, otherwise a fixed header followed by `sharedInsights.slice(-10)`
rendered as bullet lines joined with newlines. -/
def insightText (sharedInsights : List SharedInsight) : String :=
  if sharedInsights.length > 0 then
    "\n\nTEAM SHARED LEARNINGS (Prioritize these patterns):\n" ++
      String.intercalate "\n"
        ((sharedInsights.drop (sharedInsights.length - 10)).map
          (fun i => "• " ++ i.content))
  else ""

/-- The fixed part of the system-instruction template before the
`${insightText}` splice point. -/
def systemInstructionHead : String :=
  "You are Shape AI Chat, a multi-user internal AI assistant for our team.\nYour job is to provide accurate, contextual, and continuously improving answers based on:\n1. Public Knowledge Base (shared RAG)\n2. Private User Chats (not visible to others)\n3. Shared Learning (model improves using every user’s conversations)\n4. Thumbs-up feedback loop (reinforces good answers)\n\n"

/-- The fixed part of the system-instruction template after the
`${insightText}` splice point (behaviour rules, formatting rules and the
output style examples). -/
def systemInstructionTail : String :=
  "\n\n⸻\n\nCORE BEHAVIOR RULES\n\n1. User Authentication & Session Handling\n   - You are interacting with a specific logged-in user.\n   - Respect their private chat history context.\n\n2. Public Knowledge Base (Shared RAG Layer)\n   - Use the provided documents (files) as the primary shared truth.\n   - All users share these documents.\n\n3. Handling File Uploads / Images (Ephemeral)\n   - Files uploaded in this session are TEMPORARY.\n   - Do NOT store them or assume they persist.\n   - Use them immediately for analysis.\n\n4. Shared Learning From All Users\n   - The \"TEAM SHARED LEARNINGS\" section above contains insights derived from thumbs-up feedback.\n   - Use these to align with team terminology, processes, and corrections.\n\n5. Web Browsing\n   - If the tool \x27googleSearch\x27 is available/enabled, use it to get broader context when the Knowledge Base is insufficient.\n\n6. Response Formatting (Strict)\n   - Use clear spacing, bullet points, and numbered lists.\n   - Use emojis naturally.\n   - Use clean section headings.\n   - Tables: Only for summaries. No multiline text inside cells.\n   - Tone: Professional, Confident, Insightful.\n\n⸻\n\nOutput Style Examples\n\n# 🚧 Title\nShort intro.\n\n## 🔍 Key Insights\n- Point 1\n- Point 2\n\n## 📊 Summary\n| Metric | Value |\n| :--- | :--- |\n| A | B |\n\n## 📌 Final Thoughts\nWrap up.\n\n⸻\n\n🚫 Never Do This\n   - No solid text blocks\n   - No plain-text dumps\n   - No citations unless asked (\"Show sources\")\n"

/-- The assembled `systemInstruction` string. -/
def systemInstruction (sharedInsights : List SharedInsight) : String :=
  systemInstructionHead ++ insightText sharedInsights ++ systemInstructionTail

/-- The insights section as the specification words it: omitted entirely
when there are no insights, otherwise the most recent at most 10,
rendered as a bulleted list in chronological order. -/
def insightTextSpec (l : List SharedInsight) : String :=
  if l.isEmpty then ""
  else
    "\n\nTEAM SHARED LEARNINGS (Prioritize these patterns):\n" ++
      String.intercalate "\n"
        (((l.reverse.take 10).reverse).map (fun i => "• " ++ i.content))

/-! ## Feedback processor (from `src/App.tsx`, `handleFeedback`, lines 194–225) -/

/-- `handleFeedback`: tag the message with the feedback type; on a
thumbs-up for a message at a positive index, build a shared insight from
the immediately preceding message's text (the question) and the first
200 characters of the message's own text (the answer) and append it.
`findIdx?` models `findIndex` (its `none` is JavaScript's `-1`, for
which `msgIndex > 0` is false); the unreachable out-of-bounds arm keeps
the indexing total. -/
def handleFeedback (history : List ChatMessage) (insights : List SharedInsight)
    (messageId : String) (ftype : FeedbackType) (newId : String) (now : Nat)
    (activeBaseId : String) : List ChatMessage × List SharedInsight :=
  let newHistory := history.map
    (fun m => if m.id = messageId then { m with feedback := some ftype } else m)
  let newInsights :=
    if ftype = .thumbs_up then
      match history.findIdx? (fun m => m.id = messageId) with
      | some idx =>
          if 0 < idx then
            match history[idx - 1]?, history[idx]? with
            | some prev, some cur =>
                insights ++
                  [{ id := newId,
                     content := "Q: " ++ prev.text ++ "\n" ++ "A: " ++
                       cur.text.take 200 ++ "...",
                     timestamp := now, sourceBaseId := some activeBaseId }]
            | _, _ => insights
          else insights
      | none => insights
    else insights
  (newHistory, newInsights)

/-! ## Send path (from `src/App.tsx`, `handleSendMessage`, lines 134–192) -/

/-- `handleSendMessage` on the active conversation's history: the user
turn is appended, then the backend call's outcome is appended as a model
turn — on rejection (the `catch` branch), as an error-flagged message
with text `Error: ${error.message}`.  The function is total: a backend
failure always resolves into a message, never into a propagated fault. -/
def handleSendMessage (history : List ChatMessage) (text : String)
    (attachments : List ChatAttachment)
    (outcome : Except String (String × List Citation))
    (userMsgId modelMsgId : String) (sendTime replyTime : Nat) :
    List ChatMessage :=
  let userMsg : ChatMessage :=
    { id := userMsgId, role := .user, text := text,
      attachments := attachments, timestamp := sendTime }
  let updated := history ++ [userMsg]
  match outcome with
  | .ok (responseText, citations) =>
      updated ++ [{ id := modelMsgId, role := .model, text := responseText,
                    citations := citations, timestamp := replyTime }]
  | .error msg =>
      updated ++ [{ id := modelMsgId, role := .model,
                    text := "Error: " ++ msg, timestamp := replyTime,
                    isError := true }]

/-! ## Submission guard (from `ChatArea.handleSubmit`, lines 485–493) -/

/-- The composer state of the active conversation, together with a
counter of backend requests issued so far. -/
structure ChatAreaState where
  history : List ChatMessage
  isProcessing : Bool
  input : String
  pendingAttachments : List ChatAttachment
  requestsIssued : Nat
deriving DecidableEq

/-- `handleSubmit` together with the synchronous prefix of
`handleSendMessage` (run with an API key and an active base): return
unchanged when the trimmed input is empty with no pending attachments or
when a generation is already in flight (`isProcessing`); otherwise clear
the composer, append the user turn, mark the conversation as processing
and issue one backend request. -/
def handleSubmit (st : ChatAreaState) (userMsgId : String) (now : Nat) :
    ChatAreaState :=
  if (jsTrimS st.input = "" ∧ st.pendingAttachments = []) ∨ st.isProcessing then
    st
  else
    { history := st.history ++
        [{ id := userMsgId, role := .user, text := st.input,
           attachments := st.pendingAttachments, timestamp := now }],
      isProcessing := true,
      input := "",
      pendingAttachments := [],
      requestsIssued := st.requestsIssued + 1 }

/-! ## File-size ceilings (from `DatabaseManager.handleFileChange` and
`ChatArea.handleFileSelect`) -/

/-- One entry of an uploaded `FileList` batch: name, media type and byte
size, plus the base64 payload `fileToBase64` produces for it. -/
structure UploadFile where
  name : String
  type : String
  size : Nat
  content : String
deriving DecidableEq

/-- 50 MB: `MAX_SIZE_MB * 1024 * 1024` in `handleFileChange`. -/
def KB_MAX_SIZE : Nat := 50 * 1024 * 1024

/-- 5 MB: `5 * 1024 * 1024` in `handleFileSelect`. -/
def ATTACHMENT_MAX_SIZE : Nat := 5 * 1024 * 1024

/-- The `for` loop of `DatabaseManager.handleFileChange` (lines 34–62):
convert the batch in order into `StoredFile`s; a file over the 50 MB
ceiling throws, aborting the loop.  `ids i` supplies the generated id of
the `i`-th file. -/
def processKbFiles (ids : Nat → String) (now : Nat) :
    Nat → List UploadFile → Except String (List StoredFile)
  | _, [] => .ok []
  | i, f :: fs =>
      if f.size > KB_MAX_SIZE then
        .error ("File \"" ++ f.name ++ "\" is too large (> 50MB).")
      else
        match processKbFiles ids now (i + 1) fs with
        | .ok rest =>
            .ok ({ id := ids i, name := f.name,
                   type := if f.type = "" then "text/plain" else f.type,
                   size := f.size, content := f.content,
                   uploadedAt := now } :: rest)
        | .error e => .error e

/-- `handleFileChange`'s effect on the knowledge base: `onAddFiles` is
called with the converted batch only when the whole loop completed; the
`catch` branch only reports the error and stores nothing. -/
def kbFilesAdded (ids : Nat → String) (now : Nat) (batch : List UploadFile) :
    List StoredFile :=
  match processKbFiles ids now 0 batch with
  | .ok fs => fs
  | .error _ => []

/-- `ChatArea.handleFileSelect` (lines 458–481): a file over the 5 MB
ceiling is skipped (`continue` after the alert) and the rest of the
batch keeps processing; compliant files become pending attachments in
order. -/
def handleFileSelect (ids : Nat → String) :
    Nat → List UploadFile → List ChatAttachment
  | _, [] => []
  | i, f :: fs =>
      if f.size > ATTACHMENT_MAX_SIZE then handleFileSelect ids (i + 1) fs
      else
        { id := ids i,
          type := if textBegins f.type "image/" then .image else .file,
          mimeType := if f.type = "" then "application/octet-stream" else f.type,
          name := f.name,
          content := f.content } :: handleFileSelect ids (i + 1) fs

/-- The original claim's reading of inline-citation deduplication: by the
pair `(source, context)`, in first-seen order. -/
def extractByPair (text : String) : List Citation :=
  dedupByKey (fun c => (c.source, c.context)) ((scanText text).1.map toCitation)

/-! ## General lemmas -/

@[simp] theorem dedupByKey_nil {κ : Type} [DecidableEq κ] (key : Citation → κ) :
    dedupByKey key [] = [] := by
  rw [dedupByKey]

@[simp] theorem dedupByKey_cons {κ : Type} [DecidableEq κ] (key : Citation → κ)
    (c : Citation) (cs : List Citation) :
    dedupByKey key (c :: cs) =
      c :: dedupByKey key (cs.filter (fun d => key d ≠ key c)) := by
  rw [dedupByKey]

theorem dedupByKey_eq_nil_iff {κ : Type} [DecidableEq κ] (key : Citation → κ)
    (l : List Citation) : dedupByKey key l = [] ↔ l = [] := by
  cases l <;> simp

theorem contains_append_not (seen : List String) (a k : String) :
    (!((seen ++ [k]).contains a)) = (decide (a ≠ k) && !seen.contains a) := by
  induction seen with
  | nil => simp [List.contains_cons, beq_eq_decide, decide_not, Bool.and_comm]
  | cons s ss ih =>
      simp only [List.cons_append, List.contains_cons, Bool.not_or, ih]
      cases h : (a == s) <;> simp [Bool.and_comm, Bool.and_assoc, Bool.and_left_comm]

theorem collectCitations_eq_dedupByKey (l : List Citation) :
    ∀ (cits : List Citation) (seen : List String),
      collectCitations l cits seen =
        cits ++ dedupByKey citeKey (l.filter (fun c => !seen.contains (citeKey c))) := by
  induction l with
  | nil =>
      intro cits seen
      simp [collectCitations]
  | cons c cs ih =>
      intro cits seen
      by_cases h : seen.contains (citeKey c) = true
      · rw [collectCitations, if_pos h, ih]
        have hnc : (!seen.contains (citeKey c)) = false := by rw [h]; rfl
        rw [List.filter_cons, hnc]
        simp
      · have hcf : seen.contains (citeKey c) = false := Bool.eq_false_iff.mpr h
        have hc : (!seen.contains (citeKey c)) = true := by rw [hcf]; rfl
        rw [collectCitations, if_neg h, ih, List.filter_cons, hc]
        simp only [if_true, dedupByKey_cons, List.filter_filter]
        have hfe : (cs.filter (fun d => !((seen ++ [citeKey c]).contains (citeKey d)))) =
            (cs.filter (fun a => decide (citeKey a ≠ citeKey c) && !seen.contains (citeKey a))) := by
          apply List.filter_congr
          intro x _
          exact contains_append_not seen (citeKey x) (citeKey c)
        rw [hfe]
        simp

theorem drop_sub_eq_reverse_take {α : Type} (l : List α) (n : Nat) :
    l.drop (l.length - n) = (l.reverse.take n).reverse := by
  rw [List.reverse_take]
  simp

/-! ## Claim theorems -/

/-- **C3, counterexample.** The claim says inline citations are
"deduplicated by the pair (source, context)".  The code deduplicates by
the concatenated string `` `${source}-${context}` ``, which conflates
distinct pairs: on a text with the two distinct pairs `("a-b", "c")` and
`("a", "b-c")`, the extraction emits one citation where pair-based
deduplication keeps both. -/
theorem citationDedupByPair_cex :
    ((citationPass "[Source: a-b, Context: \"c\"][Source: a, Context: \"b-c\"]" []).2).length = 1 ∧
    (extractByPair "[Source: a-b, Context: \"c\"][Source: a, Context: \"b-c\"]").length = 2 := by
  constructor
  · rfl
  · have h1 : ((scanText "[Source: a-b, Context: \"c\"][Source: a, Context: \"b-c\"]").1.map toCitation) =
        [{ source := "a-b", context := "c" }, { source := "a", context := "b-c" }] := by rfl
    rw [extractByPair, h1]
    simp [dedupByKey_cons, List.filter_cons]

/-- **C3 (amended).** For every raw response text, inline citation
extraction emits one citation per bracket marker matching the grammar
`[Source: label(, Context: \"excerpt\")?]` (with the excerpt defaulting
to a fixed label when absent), deduplicated in first-seen order by the
string `source ++ "-" ++ context`; all matched spans are stripped from
the text and the result trimmed, and this cleaned text is returned
exactly when inline citations were extracted, otherwise the raw text is
returned unchanged. -/
theorem inlineCitationExtraction (text : String) :
    citationPass text [] =
      (if (scanText text).1 = [] then text
       else String.mk (jsTrim (scanText text).2),
       dedupByKey citeKey ((scanText text).1.map toCitation)) := by
  simp only [citationPass]
  rw [collectCitations_eq_dedupByKey]
  simp only [List.nil_append]
  have hf : (((scanText text).1.map toCitation).filter
      (fun c => !(List.contains [] (citeKey c)))) = (scanText text).1.map toCitation := by
    apply List.filter_eq_self.mpr
    intro a _
    rfl
  rw [hf]
  by_cases hms : (scanText text).1 = []
  · simp [hms]
  · have hne : dedupByKey citeKey ((scanText text).1.map toCitation) ≠ [] := by
      rw [Ne, dedupByKey_eq_nil_iff, List.map_eq_nil_iff]
      exact hms
    rw [if_neg hms, if_pos (List.length_pos.mpr hne)]

/-- **C4.** The assembled system instruction is the fixed template with
one variable section: the most recent at most 10 shared insights rendered
as a bulleted list in chronological (list) order, omitted entirely when
the insight list is empty.  `insightTextSpec` words the section as the
specification does (last-10 via reverse/take/reverse); the code's
`slice(-10)` agrees with it on every list. -/
theorem systemInstructionInsightWindow (l : List SharedInsight) :
    systemInstruction l =
      systemInstructionHead ++ insightTextSpec l ++ systemInstructionTail ∧
    insightText [] = "" ∧
    insightText l = insightTextSpec l := by
  have hmain : ∀ (m : List SharedInsight), insightText m = insightTextSpec m := by
    intro m
    cases m with
    | nil => rfl
    | cons a as =>
        simp only [insightText, insightTextSpec]
        rw [if_pos (by simp), if_neg (by simp)]
        rw [drop_sub_eq_reverse_take]
  refine ⟨?_, rfl, hmain l⟩
  unfold systemInstruction
  rw [hmain l]

/-- **C8.** A failing store read (`get`/`getAll`) resolves to absent
(`none`) or the empty sequence rather than propagating an error; a
failing store write (`put`) propagates as a rejected error to the
caller.  The success paths and the impossibility of a read rejecting are
included to pin the wiring down. -/
theorem storeReadSwallowWritePropagate :
    (∀ (α : Type) (e : String), StorageUtils.get (α := α) (.error e) = .ok none) ∧
    (∀ (α : Type) (e : String), StorageUtils.getAll (α := α) (.error e) = .ok []) ∧
    (∀ (e : String), StorageUtils.put (.error e) = .error e) ∧
    (∀ (α : Type) (v : Option α), StorageUtils.get (.ok v) = .ok v) ∧
    (∀ (α : Type) (v : List α), StorageUtils.getAll (.ok v) = .ok v) ∧
    (∀ (α : Type) (outcome : Except String (Option α)),
      ∃ v, StorageUtils.get outcome = .ok v) ∧
    (∀ (α : Type) (outcome : Except String (List α)),
      ∃ v, StorageUtils.getAll outcome = .ok v) := by
  refine ⟨fun α e => rfl, fun α e => rfl, fun e => rfl, fun α v => rfl,
    fun α v => rfl, ?_, ?_⟩
  · intro α outcome
    cases outcome with
    | ok v => exact ⟨v, rfl⟩
    | error e => exact ⟨none, rfl⟩
  · intro α outcome
    cases outcome with
    | ok v => exact ⟨v, rfl⟩
    | error e => exact ⟨[], rfl⟩

/-- **C10.** A successful backend call whose response text is empty or
absent yields the literal placeholder `"No response generated."` as the
returned model text (whatever grounding citations web search produced),
and the defaulted raw text of a successful generation is never the empty
string. -/
theorem emptyResponsePlaceholder (grounding : List Citation) (rt : Option String) :
    (generateResponse none grounding).1 = "No response generated." ∧
    (generateResponse (some "") grounding).1 = "No response generated." ∧
    rawTextOf rt ≠ "" := by
  have hpass : (citationPass "No response generated." grounding).1 = "No response generated." := by
    simp only [citationPass]
    have hscan : scanText "No response generated." = ([], "No response generated.".data) := by rfl
    rw [hscan]
    have htrim : String.mk (jsTrim "No response generated.".data) = "No response generated." := by rfl
    simp only [List.map_nil, collectCitations, htrim, ite_self]
  refine ⟨?_, ?_, ?_⟩
  · show (citationPass (rawTextOf none) grounding).1 = _
    exact hpass
  · show (citationPass (rawTextOf (some "")) grounding).1 = _
    have : rawTextOf (some "") = "No response generated." := by rfl
    rw [this]
    exact hpass
  · cases rt with
    | none =>
        intro h
        exact absurd h (by decide)
    | some t =>
        by_cases ht : t = ""
        · simp only [rawTextOf, ht, if_pos rfl]
          decide
        · simp only [rawTextOf, if_neg ht]
          exact ht

/-- **C6, counterexample.** The claim says the appended error message's
text begins with the error's message.  The code prepends `"Error: "`:
with error message `"boom"` the appended text is `"Error: boom"`, and no
message in the resulting history begins with `"boom"`. -/
theorem backendErrorTextShape_cex :
    (handleSendMessage [] "hi" [] (.error "boom") "u1" "m1" 1 2).map
      (fun m => textBegins m.text "boom") = [false, false] := by rfl

/-- **C6 (amended).** A backend call that raises an error never
propagates past the send operation (the send resolves to a plain history
by construction); instead a new `ChatMessage` with the error flag set
and text `"Error: "` followed by the error's message is appended
immediately after the user's triggering message, with the rest of the
conversation history unchanged. -/
theorem backendErrorAppended (history : List ChatMessage) (text : String)
    (attachments : List ChatAttachment) (msg : String)
    (userMsgId modelMsgId : String) (sendTime replyTime : Nat) :
    handleSendMessage history text attachments (.error msg)
        userMsgId modelMsgId sendTime replyTime =
      history ++
        [{ id := userMsgId, role := .user, text := text,
           attachments := attachments, timestamp := sendTime },
         { id := modelMsgId, role := .model, text := "Error: " ++ msg,
           timestamp := replyTime, isError := true }] ∧
    textBegins ("Error: " ++ msg) "Error: " = true := by
  constructor
  · simp [handleSendMessage]
  · simp only [textBegins, String.data_append]
    have h7 : "Error: ".data.length = ("Error: ".data).length := rfl
    rw [List.take_left]
    simp

/-- **C9.** At most one generation is in flight per conversation: while
`isProcessing` is set, a submit is rejected outright — the state (its
history and its count of issued backend requests included) is unchanged.
Moreover an accepted submit leaves the state processing, so a second
submit issued before the first completes is exactly such a rejected
no-op. -/
theorem singleInFlightGeneration (st : ChatAreaState) (uid : String) (t : Nat) :
    (st.isProcessing = true → handleSubmit st uid t = st) ∧
    (handleSubmit st uid t ≠ st →
      ∀ (uid2 : String) (t2 : Nat),
        handleSubmit (handleSubmit st uid t) uid2 t2 = handleSubmit st uid t) := by
  constructor
  · intro h
    simp [handleSubmit, h]
  · intro hne uid2 t2
    by_cases hg : (jsTrimS st.input = "" ∧ st.pendingAttachments = []) ∨ st.isProcessing
    · exact absurd (by simp [handleSubmit, hg]) hne
    · have hres : handleSubmit st uid t =
          { history := st.history ++
              [{ id := uid, role := .user, text := st.input,
                 attachments := st.pendingAttachments, timestamp := t }],
            isProcessing := true, input := "", pendingAttachments := [],
            requestsIssued := st.requestsIssued + 1 } := by
        simp [handleSubmit, hg]
      rw [hres]
      simp [handleSubmit]

/-- Witness for `singleInFlightGeneration`: a concrete in-flight state is
left unchanged by a second submit. -/
theorem singleInFlightGeneration_witness :
    handleSubmit { history := [], isProcessing := true, input := "hello",
                   pendingAttachments := [], requestsIssued := 1 } "u2" 7 =
      { history := [], isProcessing := true, input := "hello",
        pendingAttachments := [], requestsIssued := 1 } :=
  (singleInFlightGeneration _ "u2" 7).1 rfl

/-- **C5.** `registerUser` rejects with the duplicate-user error when a
user with the username already exists, leaving the users collection
unchanged, and otherwise returns a new `User` with that username (stored
alongside the existing users); `loginUser` rejects with the not-found
error when no user with the username exists, and otherwise returns the
stored `User`.  The spec's `DuplicateUser` / `UserNotFound` error kinds
are the thrown messages `"Username already taken"` / `"User not found"`. -/
theorem registerLoginErrors (users : List User) (username newId : String) (now : Nat) :
    ((users.find? (fun u => u.username = username)).isSome = true →
      registerUser users username newId now = (.error "Username already taken", users)) ∧
    (users.find? (fun u => u.username = username) = none →
      registerUser users username newId now =
        (.ok { id := newId, username := username, createdAt := now },
         users ++ [{ id := newId, username := username, createdAt := now }])) ∧
    (∀ u, users.find? (fun u => u.username = username) = some u →
      loginUser users username = .ok u) ∧
    (users.find? (fun u => u.username = username) = none →
      loginUser users username = .error "User not found") := by
  refine ⟨?_, ?_, ?_, ?_⟩
  · intro h
    obtain ⟨u, hu⟩ := Option.isSome_iff_exists.mp h
    simp [registerUser, hu]
  · intro h
    simp only [registerUser, h, usersPut]
    have hall : ∀ a ∈ users, ¬(a.username = username) := by
      intro a ha
      have := List.find?_eq_none.mp h a ha
      simpa using this
    have hfil : users.filter (fun v => v.username ≠ username) = users := by
      apply List.filter_eq_self.mpr
      intro a ha
      simpa using hall a ha
    rw [hfil]
  · intro u hu
    simp [loginUser, hu]
  · intro h
    simp [loginUser, h]

/-- Witness for `registerLoginErrors`: a duplicate registration is
rejected with the store unchanged, a fresh registration succeeds, a
login finds the stored user, and a login with no prior registration is
rejected. -/
theorem registerLoginErrors_witness :
    registerUser [{ id := "u1", username := "alice", createdAt := 0 }] "alice" "u2" 5 =
      (.error "Username already taken",
       [{ id := "u1", username := "alice", createdAt := 0 }]) ∧
    registerUser [] "carol" "u3" 6 =
      (.ok { id := "u3", username := "carol", createdAt := 6 },
       [{ id := "u3", username := "carol", createdAt := 6 }]) ∧
    loginUser [{ id := "u1", username := "alice", createdAt := 0 }] "alice" =
      .ok { id := "u1", username := "alice", createdAt := 0 } ∧
    loginUser [] "bob" = .error "User not found" :=
  ⟨(registerLoginErrors _ "alice" "u2" 5).1 (by decide),
   (registerLoginErrors [] "carol" "u3" 6).2.1 rfl,
   (registerLoginErrors _ "alice" "x" 0).2.2.1 _ (by decide),
   (registerLoginErrors [] "bob" "x" 0).2.2.2 rfl⟩

/-- **C1.** In a chat sequence where model message `cur` at index `idx`
is immediately preceded by the user question `prev`, a thumbs-up on
`cur` appends exactly one new `SharedInsight` whose content is
`"Q: "` + the question text + a newline + `"A: "` + the first 200
characters of the answer text + a trailing `"..."`; a thumbs-down never
creates an insight. -/
theorem thumbsUpCreatesInsight (history : List ChatMessage)
    (insights : List SharedInsight) (messageId newId activeBaseId : String)
    (now : Nat) (idx : Nat) (prev cur : ChatMessage)
    (hidx : history.findIdx? (fun m => m.id = messageId) = some idx)
    (hpos : 0 < idx)
    (hprev : history[idx - 1]? = some prev)
    (hcur : history[idx]? = some cur)
    (_hprole : prev.role = .user)
    (_hcrole : cur.role = .model) :
    (handleFeedback history insights messageId .thumbs_up newId now activeBaseId).2 =
      insights ++
        [{ id := newId,
           content := "Q: " ++ prev.text ++ "\n" ++ "A: " ++
             cur.text.take 200 ++ "...",
           timestamp := now, sourceBaseId := some activeBaseId }] ∧
    (handleFeedback history insights messageId .thumbs_down newId now activeBaseId).2 =
      insights := by
  constructor
  · simp [handleFeedback, hidx, hpos, hprev, hcur]
  · simp [handleFeedback]

set_option maxRecDepth 8192 in
/-- Witness for `thumbsUpCreatesInsight`: a two-message conversation
(user question, model answer) with a thumbs-up on the answer. -/
theorem thumbsUpCreatesInsight_witness :
    (handleFeedback
      [{ id := "m1", role := .user, text := "What is X?", timestamp := 0 },
       { id := "m2", role := .model, text := "X is Y", timestamp := 1 }]
      [] "m2" .thumbs_up "n1" 5 "kb1").2 =
      [{ id := "n1", content := "Q: What is X?\nA: X is Y...",
         timestamp := 5, sourceBaseId := some "kb1" }] :=
  (thumbsUpCreatesInsight
    [{ id := "m1", role := .user, text := "What is X?", timestamp := 0 },
     { id := "m2", role := .model, text := "X is Y", timestamp := 1 }]
    [] "m2" "n1" "kb1" 5 1
    { id := "m1", role := .user, text := "What is X?", timestamp := 0 }
    { id := "m2", role := .model, text := "X is Y", timestamp := 1 }
    (by rfl) (by decide) (by rfl) (by rfl) rfl rfl).1

/-- **C2, counterexample.** The claim says a thumbs-up on a message whose
immediately preceding entry is itself a model message creates no
`SharedInsight`.  The code checks only `msgIndex > 0`, never the
preceding message's role: on a history of two model messages, a
thumbs-up on the second creates one insight. -/
theorem feedbackPrecedingRole_cex :
    ((handleFeedback
      [{ id := "m1", role := .model, text := "first", timestamp := 0 },
       { id := "m2", role := .model, text := "second", timestamp := 1 }]
      [] "m2" .thumbs_up "n1" 5 "kb1").2).length = 1 := by rfl

/-- **C2 (amended).** A thumbs-up on the first message of the sequence
(or on a message id that is not found) creates no `SharedInsight` — only
the feedback tag on the message is recorded; a thumbs-up on any later
message creates an insight from the immediately preceding entry
regardless of that entry's role. -/
theorem feedbackFirstMessageNoInsight (history : List ChatMessage)
    (insights : List SharedInsight) (messageId newId activeBaseId : String)
    (now : Nat) :
    (history.findIdx? (fun m => m.id = messageId) = some 0 →
      handleFeedback history insights messageId .thumbs_up newId now activeBaseId =
        (history.map (fun m => if m.id = messageId
            then { m with feedback := some FeedbackType.thumbs_up } else m),
         insights)) ∧
    (history.findIdx? (fun m => m.id = messageId) = none →
      handleFeedback history insights messageId .thumbs_up newId now activeBaseId =
        (history.map (fun m => if m.id = messageId
            then { m with feedback := some FeedbackType.thumbs_up } else m),
         insights)) ∧
    (∀ (idx : Nat) (prev cur : ChatMessage),
      history.findIdx? (fun m => m.id = messageId) = some idx → 0 < idx →
      history[idx - 1]? = some prev → history[idx]? = some cur →
      (handleFeedback history insights messageId .thumbs_up newId now activeBaseId).2 =
        insights ++
          [{ id := newId,
             content := "Q: " ++ prev.text ++ "\n" ++ "A: " ++
               cur.text.take 200 ++ "...",
             timestamp := now, sourceBaseId := some activeBaseId }]) := by
  refine ⟨?_, ?_, ?_⟩
  · intro h
    simp [handleFeedback, h]
  · intro h
    simp [handleFeedback, h]
  · intro idx prev cur hidx hpos hprev hcur
    simp [handleFeedback, hidx, hpos, hprev, hcur]

/-- Witness for `feedbackFirstMessageNoInsight`: a thumbs-up on the
first (and only) message records the tag and creates no insight. -/
theorem feedbackFirstMessageNoInsight_witness :
    handleFeedback
      [{ id := "m1", role := .model, text := "hello", timestamp := 0 }]
      [] "m1" .thumbs_up "n1" 5 "kb1" =
      ([{ id := "m1", role := .model, text := "hello", timestamp := 0,
          feedback := some FeedbackType.thumbs_up }], []) := by
  have h := (feedbackFirstMessageNoInsight
    [{ id := "m1", role := .model, text := "hello", timestamp := 0 }]
    [] "m1" "n1" "kb1" 5).1 (by rfl)
  rw [h]
  rfl

/-- An oversized file anywhere in the batch makes the knowledge-base
upload loop throw. -/
theorem processKbFiles_error_of_oversized (ids : Nat → String) (now : Nat)
    (batch : List UploadFile) :
    ∀ (i : Nat), (∃ f ∈ batch, f.size > KB_MAX_SIZE) →
      ∃ e, processKbFiles ids now i batch = .error e := by
  induction batch with
  | nil =>
      rintro i ⟨f, hf, _⟩
      cases hf
  | cons f fs ih =>
      rintro i ⟨g, hg, hsize⟩
      by_cases hf : f.size > KB_MAX_SIZE
      · exact ⟨_, by rw [processKbFiles, if_pos hf]⟩
      · rcases List.mem_cons.mp hg with hg | hg
        · exact absurd (hg ▸ hsize) hf
        · obtain ⟨e, he⟩ := ih (i + 1) ⟨g, hg, hsize⟩
          refine ⟨e, ?_⟩
          rw [processKbFiles, if_neg hf, he]

/-- A batch with every file within the ceiling converts wholly, name,
size and payload preserved in order. -/
theorem processKbFiles_ok_of_small (ids : Nat → String) (now : Nat)
    (batch : List UploadFile) :
    ∀ (i : Nat), (∀ f ∈ batch, f.size ≤ KB_MAX_SIZE) →
      ∃ fs, processKbFiles ids now i batch = .ok fs ∧
        fs.map (fun s => (s.name, s.size, s.content)) =
          batch.map (fun f => (f.name, f.size, f.content)) := by
  induction batch with
  | nil =>
      intro i _
      exact ⟨[], rfl, rfl⟩
  | cons f fs ih =>
      intro i hsmall
      have hf : ¬ f.size > KB_MAX_SIZE :=
        Nat.not_lt.mpr (hsmall f (List.mem_cons_self f fs))
      obtain ⟨rest, hrest, hmap⟩ := ih (i + 1)
        (fun g hg => hsmall g (List.mem_cons_of_mem f hg))
      refine ⟨{ id := ids i, name := f.name,
                type := if f.type = "" then "text/plain" else f.type,
                size := f.size, content := f.content,
                uploadedAt := now } :: rest, ?_, ?_⟩
      · rw [processKbFiles, if_neg hf, hrest]
      · simp [hmap]

/-- **C7, counterexample.** The claim says the other files of a batch
containing an oversized file continue processing and are stored.  In the
knowledge-base upload path the oversized file throws out of the loop and
`onAddFiles` is never called: a three-file batch whose middle file is
one byte over 50 MB stores nothing, although two files comply. -/
theorem kbBatchAborts_cex :
    kbFilesAdded (fun _ => "fid") 0
      [{ name := "a.txt", type := "text/plain", size := 10, content := "aa" },
       { name := "big.bin", type := "", size := 52428801, content := "bb" },
       { name := "c.txt", type := "text/plain", size := 20, content := "cc" }] = [] ∧
    ([{ name := "a.txt", type := "text/plain", size := 10, content := "aa" },
      { name := "big.bin", type := "", size := 52428801, content := "bb" },
      { name := "c.txt", type := "text/plain", size := 20, content := "cc" }] :
        List UploadFile).filter (fun f => f.size ≤ KB_MAX_SIZE) =
      [{ name := "a.txt", type := "text/plain", size := 10, content := "aa" },
       { name := "c.txt", type := "text/plain", size := 20, content := "cc" }] := by
  constructor
  · rfl
  · rfl

/-- **C7 (amended).** Every file exceeding its size ceiling is rejected
before any store write occurs.  In the chat-attachment path (5 MB
ceiling) the other files in the batch continue processing and are
attached in order; in the knowledge-base upload path (50 MB ceiling) an
oversized file aborts the entire batch, so no file of that batch is
stored (a batch with every file within the ceiling is stored whole). -/
theorem fileSizeCeilings (ids : Nat → String) (now : Nat)
    (batch : List UploadFile) :
    ((∃ f ∈ batch, f.size > KB_MAX_SIZE) → kbFilesAdded ids now batch = []) ∧
    ((∀ f ∈ batch, f.size ≤ KB_MAX_SIZE) →
      (kbFilesAdded ids now batch).map (fun s => (s.name, s.size, s.content)) =
        batch.map (fun f => (f.name, f.size, f.content))) ∧
    (∀ (i : Nat), (handleFileSelect ids i batch).map (fun a => (a.name, a.content)) =
      (batch.filter (fun f => f.size ≤ ATTACHMENT_MAX_SIZE)).map
        (fun f => (f.name, f.content))) := by
  refine ⟨?_, ?_, ?_⟩
  · intro hbig
    obtain ⟨e, he⟩ := processKbFiles_error_of_oversized ids now batch 0 hbig
    rw [kbFilesAdded, he]
  · intro hsmall
    obtain ⟨fs, hok, hmap⟩ := processKbFiles_ok_of_small ids now batch 0 hsmall
    rw [kbFilesAdded, hok]
    exact hmap
  · intro i
    induction batch generalizing i with
    | nil => rfl
    | cons f fs ih =>
        by_cases hf : f.size > ATTACHMENT_MAX_SIZE
        · have hd : (decide (f.size ≤ ATTACHMENT_MAX_SIZE)) = false := by
            simp [Nat.not_le.mpr hf]
          rw [handleFileSelect, if_pos hf, ih (i + 1), List.filter_cons, hd]
          simp
        · have hd : (decide (f.size ≤ ATTACHMENT_MAX_SIZE)) = true := by
            simp [Nat.not_lt.mp hf]
          rw [handleFileSelect, if_neg hf, List.filter_cons, hd]
          simp only [if_true, List.map_cons]
          rw [ih (i + 1)]

/-- Witness for `fileSizeCeilings`: an oversized knowledge-base batch
stores nothing, a compliant one stores both files, and a mixed chat
batch attaches exactly its compliant file. -/
theorem fileSizeCeilings_witness :
    kbFilesAdded (fun _ => "fid") 0
      [{ name := "big.bin", type := "", size := 52428801, content := "bb" }] = [] ∧
    (kbFilesAdded (fun _ => "fid") 0
      [{ name := "a.txt", type := "text/plain", size := 10, content := "aa" },
       { name := "c.txt", type := "text/plain", size := 20, content := "cc" }]).map
        (fun s => (s.name, s.size, s.content)) =
      [("a.txt", 10, "aa"), ("c.txt", 20, "cc")] ∧
    (handleFileSelect (fun _ => "aid") 0
      [{ name := "p.png", type := "image/png", size := 100, content := "pp" },
       { name := "q.bin", type := "", size := 5242881, content := "qq" }]).map
        (fun a => (a.name, a.content)) =
      [("p.png", "pp")] := by
  refine ⟨?_, ?_, ?_⟩
  · exact (fileSizeCeilings (fun _ => "fid") 0 _).1
      ⟨{ name := "big.bin", type := "", size := 52428801, content := "bb" },
       by simp, by decide⟩
  · exact ((fileSizeCeilings (fun _ => "fid") 0 _).2.1
      (by intro f hf; fin_cases hf <;> decide)).trans (by rfl)
  · exact ((fileSizeCeilings (fun _ => "aid") 0 _).2.2 0).trans (by rfl)

end ShapeChat







